import Mathlib

/-!
Verification of the Dooray meeting-room reservation bot (`src/api/index.py`)
against its natural-language specification.

The development shallow-embeds the core logic of the module: the
natural-language hint extractor (`parse_natural` with its regex searches),
the room directory and option builders (`room_options`, `time_options`),
the availability checker (`overlaps`, `room_busy`), the session-state store
(`set_state`, `get_state`), the status-block codec (`parse_status`,
`status_fields`) and the action handler (`meeting_actions`).

File I/O (`load_rooms`, `load_reservations`, `save_reservations`) is passed
in explicitly: the room directory, the reservation list and the current date
are parameters (`Env`), and a possible failure of the durable write is
modelled by the flag `Env.saveOk`; when the write raises, the handler's
result carries no payload (the exception escapes the handler).  The optional
OpenAI refinement branch of `parse_natural` is the excluded enrichment
oracle; it only runs when an API key is configured (`client` is `None`
otherwise), so the embedding models the deterministic path.  Python string
operations (`strip`, `split(" ")`, `" ".join`, substring `in`, `<=`) are
re-implemented over `List Char` so that every step is kernel-computable.
-/

/-- Python truthiness of an optional string: `None` and `""` are falsy. -/
def truthyStr : Option String → Bool
  | none => false
  | some s => s != ""

/-- Python truthiness of an optional integer: `None` and `0` are falsy. -/
def truthyNat : Option Nat → Bool
  | none => false
  | some n => n != 0

/-- Whitespace as recognised by Python's `str.strip` / regex `\s`
(ASCII part; exotic Unicode whitespace does not occur in this system's data). -/
def isPyWs (c : Char) : Bool :=
  c == ' ' || c == '\t' || c == '\n' || c == '\r' || c == Char.ofNat 11 || c == Char.ofNat 12

/-- Character-level `str.strip()`: drop leading and trailing whitespace. -/
def stripChars (cs : List Char) : List Char :=
  ((cs.dropWhile isPyWs).reverse.dropWhile isPyWs).reverse

/-- Python `str.strip()`. -/
def pyStrip (s : String) : String :=
  String.mk (stripChars s.toList)

/-- Character-level `str.split(" ")`: split on every single space,
keeping empty pieces (Python semantics). -/
def splitSp : List Char → List (List Char)
  | [] => [[]]
  | c :: cs =>
    match splitSp cs, c == ' ' with
    | r, true => [] :: r
    | [], false => [[c]]
    | h :: t, false => (c :: h) :: t

/-- Python `s.split(" ")`. -/
def pySplitSp (s : String) : List String :=
  (splitSp s.toList).map String.mk

/-- Character-level `" ".join`. -/
def joinSp : List (List Char) → List Char
  | [] => []
  | [t] => t
  | t :: ts => t ++ ' ' :: joinSp ts

/-- Python `" ".join(l)`. -/
def pyJoinSp (l : List String) : String :=
  String.mk (joinSp (l.map String.toList))

/-- Python substring test `needle in hay` for strings, over char lists. -/
def listInfix (needle : List Char) : List Char → Bool
  | [] => needle.isPrefixOf []
  | c :: t => needle.isPrefixOf (c :: t) || listInfix needle t

/-- Python `sub in hay` on strings. -/
def strContains (hay sub : String) : Bool :=
  listInfix sub.toList hay.toList

/-- Lexicographic (code-point) `<` on char lists, Python's string order. -/
def charsLt : List Char → List Char → Bool
  | _, [] => false
  | [], _ :: _ => true
  | a :: as, b :: bs => if a < b then true else if a == b then charsLt as bs else false

/-- Python `x < y` on strings. -/
def strLtB (x y : String) : Bool :=
  charsLt x.toList y.toList

/-- Python `x <= y` on strings (total order: `x <= y` iff not `y < x`). -/
def pyLe (x y : String) : Bool :=
  !(strLtB y x)

/-- Zero-padded two-digit decimal rendering, as `"%02d"`. -/
def pad2 (n : Nat) : String :=
  if n < 10 then "0" ++ Nat.repr n else Nat.repr n

/-- Render a time-of-day given as minutes on a day timeline as `strftime("%H:%M")`
does after `datetime` normalisation (hours wrap modulo 24). -/
def fmtOfMin (n : Nat) : String :=
  pad2 ((n / 60) % 24) ++ ":" ++ pad2 (n % 60)

/-- Room record (`rooms.json` entry): `{id, name, floor, capacity}`. -/
structure Room where
  id : String
  name : String
  floor : Nat
  capacity : Nat
deriving DecidableEq

/-- Reservation record appended by a successful submit.  The Python dict key
`"end"` is a Lean keyword and is rendered as `endT`. -/
structure Reservation where
  id : String
  date : String
  roomId : String
  start : String
  endT : String
  title : String
  reservedBy : String
deriving DecidableEq

/-- Option of a dropdown selector: `{"text": ..., "value": ...}`. -/
structure SelectOpt where
  text : String
  value : String
deriving DecidableEq

/-- Action element of a card attachment (select or button). -/
structure UIAction where
  name : String
  type : String
  text : String
  options : List SelectOpt
  value : Option String
  style : Option String
deriving DecidableEq

/-- Field row of the status attachment: `{"title", "value", "short"}`. -/
structure SField where
  title : String
  value : String
  short : Bool
deriving DecidableEq

/-- Card attachment.  Keys absent from a given Python dict are `none` / `[]`. -/
structure Attachment where
  title : Option String
  text : Option String
  callbackId : Option String
  actions : List UIAction
  fields : List SField
deriving DecidableEq

/-- Card payload produced by `msg(...)` and by the submit branch:
text, response type, replace/delete flags and the attachment list. -/
structure Msg where
  text : String
  responseType : String
  replaceOriginal : Bool
  deleteOriginal : Bool
  attachments : List Attachment
deriving DecidableEq

/-- The helper `msg(text, attachments, response_type, replace_original, delete_original)`. -/
def msg (text : String) (attachments : List Attachment) (response_type : String)
    (replace_original : Bool) (delete_original : Bool) : Msg :=
  ⟨text, response_type, replace_original, delete_original, attachments⟩

/-- Mention token: `f'(dooray://{tenant_id}/members/{user_id} "{label}")'`.
Note the single space before the quoted label. -/
def mention (tenant_id user_id label : String) : String :=
  "(dooray://" ++ tenant_id ++ "/members/" ++ user_id ++ " \"" ++ label ++ "\")"

/-- Status mapping decoded from a card: display key to ordered mention list.
Python `dict` preserves insertion order, so it is an association list. -/
abbrev Status : Type := List (String × List String)

/-- Python `d[k]` lookup (as an option). -/
def dictGet (d : Status) (k : String) : Option (List String) :=
  (d.find? (fun kv => kv.1 == k)).map (fun kv => kv.2)

/-- Python `d[k] = v`: overwrite in place if the key exists, else append. -/
def dictSet : Status → String → List String → Status
  | [], k, v => [(k, v)]
  | (k0, v0) :: rest, k, v =>
    if k0 == k then (k0, v) :: rest else (k0, v0) :: dictSet rest k v

/-- Python `d.setdefault(k, [])` (effect on the dict only). -/
def dictSetdefault (d : Status) (k : String) : Status :=
  if (dictGet d k).isSome then d else d ++ [(k, [])]

/-- The status-block decoder `parse_status(original)`: walk the attachments,
and inside every one titled `"예약 현황"` read each field row, splitting the
stripped value on single spaces and dropping empty pieces. -/
def parse_status (original : Msg) : Status :=
  original.attachments.foldl
    (fun out att =>
      if att.title == some "예약 현황" then
        att.fields.foldl
          (fun out f =>
            let k := f.title
            let v := pyStrip f.value
            if k != "" then dictSet out k ((pySplitSp v).filter (fun x => x != "")) else out)
          out
      else out)
    []

/-- The status-block encoder `status_fields(status)`: placeholder row when the
mapping is empty, otherwise one row per key with the space-joined mentions. -/
def status_fields (status : Status) : List SField :=
  if status = [] then [⟨"아직 없음", "제출 시 여기에 표시됩니다.", false⟩]
  else status.map (fun kv => ⟨kv.1, if kv.2 = [] then "-" else pyJoinSp kv.2, false⟩)

/-- The status attachment the submit branch writes back:
`{"title": "예약 현황", "fields": status_fields(status)}`. -/
def statusAtt (fields : List SField) : Attachment :=
  ⟨some "예약 현황", none, none, [], fields⟩

/-- Message wrapping of an encoded status mapping, as the submit branch embeds
it into a card; decoding it with `parse_status` is the codec round trip. -/
def encodeStatusMsg (m : Status) : Msg :=
  ⟨"", "ephemeral", false, false, [statusAtt (status_fields m)]⟩

/-- Digit value of an ASCII digit character. -/
def digitVal (c : Char) : Nat := c.toNat - 48

/-- Captures of `TIME_RANGE_RE`: start hour, optional start minutes,
end hour, optional end minutes (as parsed by `int(...)`). -/
structure TimeCap where
  sh : Nat
  sm : Option Nat
  eh : Nat
  em : Option Nat
deriving DecidableEq

/-- The optional minutes group `(?::?(?P<m>\d{2}))?` when only its captured
value matters (end side; everything after it in the pattern matches the empty
string, so greedy first success is final). -/
def matchMinV : List Char → Option Nat
  | ':' :: a :: b :: _ =>
    if a.isDigit && b.isDigit then some (digitVal a * 10 + digitVal b) else none
  | a :: b :: _ =>
    if a.isDigit && b.isDigit then some (digitVal a * 10 + digitVal b) else none
  | _ => none

/-- The optional minutes group on the start side, returning the capture and
the remaining input.  If the group matches, the following separator starts
with a non-digit non-colon character, so a local success never has to be
undone in favour of skipping the group: the greedy order is exact. -/
def matchMinS : List Char → Option Nat × List Char
  | ':' :: a :: b :: rest =>
    if a.isDigit && b.isDigit then (some (digitVal a * 10 + digitVal b), rest)
    else (none, ':' :: a :: b :: rest)
  | a :: b :: rest =>
    if a.isDigit && b.isDigit then (some (digitVal a * 10 + digitVal b), rest)
    else (none, a :: b :: rest)
  | cs => (none, cs)

/-- The separator alternative `(?:~|부터)`. -/
def matchSep : List Char → Option (List Char)
  | '~' :: rest => some rest
  | '부' :: '터' :: rest => some rest
  | _ => none

/-- Remainder of `TIME_RANGE_RE` after the start hour has been read:
optional start minutes, `\s*`, separator, `\s*`, end hour (greedy two digits
then one), optional end minutes.  The trailing `\s*?(?:까지)?` always matches
the empty string and binds nothing. -/
def afterSH (sh : Nat) (rest : List Char) : Option TimeCap :=
  let (sm, rest1) := matchMinS rest
  match matchSep (rest1.dropWhile isPyWs) with
  | none => none
  | some rest3 =>
    match rest3.dropWhile isPyWs with
    | c1 :: c2 :: r =>
      if c1.isDigit && c2.isDigit then some ⟨sh, sm, digitVal c1 * 10 + digitVal c2, matchMinV r⟩
      else if c1.isDigit then some ⟨sh, sm, digitVal c1, matchMinV (c2 :: r)⟩
      else none
    | [c1] => if c1.isDigit then some ⟨sh, sm, digitVal c1, none⟩ else none
    | [] => none

/-- Match `TIME_RANGE_RE` anchored at the head of the input: the start hour
`\d{1,2}` is greedy, two digits first, backtracking to one digit if the rest
of the pattern fails. -/
def matchTimeRange : List Char → Option TimeCap
  | c1 :: c2 :: rest =>
    (if c1.isDigit && c2.isDigit then afterSH (digitVal c1 * 10 + digitVal c2) rest else none) <|>
    (if c1.isDigit then afterSH (digitVal c1) (c2 :: rest) else none)
  | [c1] => if c1.isDigit then afterSH (digitVal c1) [] else none
  | [] => none

/-- `TIME_RANGE_RE.search`: leftmost match wins. -/
def searchTime : List Char → Option TimeCap
  | [] => none
  | c :: rest => matchTimeRange (c :: rest) <|> searchTime rest

/-- Tail of `FLOOR_RE` after the digits: `\s*층`. -/
def afterFloorDigits (n : Nat) (rest : List Char) : Option Nat :=
  match rest.dropWhile isPyWs with
  | '층' :: _ => some n
  | _ => none

/-- Match `FLOOR_RE` (`(?P<floor>\d{1,2})\s*층`) anchored at the head. -/
def matchFloor : List Char → Option Nat
  | c1 :: c2 :: rest =>
    (if c1.isDigit && c2.isDigit then afterFloorDigits (digitVal c1 * 10 + digitVal c2) rest else none) <|>
    (if c1.isDigit then afterFloorDigits (digitVal c1) (c2 :: rest) else none)
  | _ => none

/-- `FLOOR_RE.search`: leftmost match wins. -/
def searchFloor : List Char → Option Nat
  | [] => none
  | c :: rest => matchFloor (c :: rest) <|> searchFloor rest

/-- `ROOM_NAME_TOKEN_RE.search`: text mentions a meeting room / room / space. -/
def containsRoomToken (text : String) : Bool :=
  strContains text "회의실" || strContains text "룸" || strContains text "방"

/-- NLU hint structure produced by `parse_natural`. -/
structure Nlu where
  floor : Option Nat
  room_hint : Option String
  start : Option String
  endT : Option String
  title : String
deriving DecidableEq

/-- Start of the matched range in minutes (missing minutes default to `0`). -/
def startMin (c : TimeCap) : Nat := c.sh * 60 + c.sm.getD 0

/-- End of the matched range in minutes (missing minutes default to `0`). -/
def endMin (c : TimeCap) : Nat := c.eh * 60 + c.em.getD 0

/-- Bounds checked by the `datetime(...)` constructor: hour 0-23, minute 0-59.
Out-of-range captures make `datetime` raise `ValueError`. -/
def validTime (c : TimeCap) : Bool :=
  decide (c.sh ≤ 23) && decide (c.sm.getD 0 ≤ 59) &&
  decide (c.eh ≤ 23) && decide (c.em.getD 0 ≤ 59)

/-- Input of the time-range search: the text with every `" "` removed
(`text.replace(" ", "")`), as a char list. -/
def timeSearchInput (text : String) : List Char :=
  text.toList.filter (fun ch => ch != ' ')

/-- The deterministic extractor `parse_natural(text)`.  `none` models the
uncaught `ValueError` raised by `datetime(...)` on out-of-range captures.
The time pattern is searched on the text with all `" "` removed
(`text.replace(" ", "")`); if the parsed end is not after the start, one hour
is added to the end (`end += timedelta(hours=1)`), and both endpoints are
rendered with `strftime("%H:%M")`.  The OpenAI refinement only runs when an
API key is configured and is excluded as the external enrichment oracle. -/
def parse_natural (text0 : String) : Option Nlu :=
  let text := pyStrip text0
  let floor := searchFloor text.toList
  let hint := if containsRoomToken text then some text else none
  match searchTime (timeSearchInput text) with
  | none => some ⟨floor, hint, none, none, text⟩
  | some c =>
    if validTime c then
      let s := startMin c
      let e0 := endMin c
      let e := if e0 ≤ s then e0 + 60 else e0
      some ⟨floor, hint, some (fmtOfMin s), some (fmtOfMin e), text⟩
    else none

/-- The seed room directory the module writes to `data/rooms.json` when the
file is absent (`sample_rooms`). -/
def sample_rooms : List Room :=
  [⟨"R301", "3층 대회의실", 3, 12⟩,
   ⟨"R302", "3층 소회의실 A", 3, 6⟩,
   ⟨"R303", "3층 소회의실 B", 3, 6⟩,
   ⟨"R401", "4층 라운지룸", 4, 8⟩,
   ⟨"R402", "4층 세미나룸", 4, 20⟩]

/-- `load_rooms()`: the persisted room directory, here the seeded sample data. -/
def load_rooms : List Room := sample_rooms

/-- Sort key `(floor ascending, name ascending)` as a Boolean total preorder
(`sort` is stable, matching Python's stable sort on the tuple key). -/
def roomLe (a b : Room) : Bool :=
  decide (a.floor < b.floor) || (a.floor == b.floor && !(strLtB b.name a.name))

/-- Stable insertion: place `x` before the first element not below it. -/
def insertRoom (x : Room) : List Room → List Room
  | [] => [x]
  | y :: l => if roomLe x y then x :: y :: l else y :: insertRoom x l

/-- Stable ascending sort by `(floor, name)`, the semantics of Python's
`rooms.sort(key=lambda x: (floor, name))` (stable insertion sort; stability
plus totality of the key order make the result unique). -/
def sortRooms : List Room → List Room
  | [] => []
  | x :: l => insertRoom x (sortRooms l)

/-- `room_options(floor, hint)` over a given directory: optional floor filter
(Python-falsy floor means no filter), then keep rooms whose id or name occurs
inside the hint text, sort by `(floor, name)`, and render the options. -/
def room_options (rooms0 : List Room) (floor : Option Nat) (hint : Option String) : List SelectOpt :=
  let rooms1 := if truthyNat floor then rooms0.filter (fun r => r.floor == floor.getD 0) else rooms0
  let kw := hint.getD ""
  let rooms2 :=
    if truthyStr hint then
      rooms1.filter (fun r => strContains kw r.id || strContains kw r.name)
    else rooms1
  (sortRooms rooms2).map (fun r => ⟨r.name ++ " (" ++ r.id ++ ")", r.id⟩)

/-- `time_options(pref)`: 30-minute slots from 08:00 to 20:00 inclusive;
a preferred time that is one of the slots is moved to the front. -/
def time_options (pref : Option String) : List SelectOpt :=
  let slots := (List.range 25).map (fun i => fmtOfMin (480 + 30 * i))
  let slots :=
    match pref with
    | some p => if p != "" && slots.contains p then p :: slots.erase p else slots
    | none => slots
  slots.map (fun s => ⟨s, s⟩)

/-- The placeholder option rendered when no rooms survive the filters. -/
def noRoomOpt : SelectOpt := ⟨"(회의실 없음)", "__none__"⟩

/-- The placeholder status row rendered by the template and by
`status_fields` on an empty mapping. -/
def placeholderRow : SField := ⟨"아직 없음", "제출 시 여기에 표시됩니다.", false⟩

/-- Python `"\n".join(l)`. -/
def joinNl : List String → String
  | [] => ""
  | [x] => x
  | x :: xs => x ++ "\n" ++ joinNl xs

/-- The card renderer `build_template_ui(nlu)`: room selector (filtered by
the hint's floor and room hint, with a placeholder option when empty), start
and end selectors (preferred time first), info text, submit button and the
placeholder status section. -/
def build_template_ui (rooms : List Room) (nlu : Nlu) : Msg :=
  let floor := nlu.floor
  let room_opts := room_options rooms floor nlu.room_hint
  let start_opts := time_options nlu.start
  let end_opts := time_options nlu.endT
  let info1 : List String :=
    if truthyNat floor then ["• 층 필터: " ++ Nat.repr (floor.getD 0) ++ "층"] else []
  let info2 : List String :=
    if truthyStr nlu.start && truthyStr nlu.endT then
      ["• 시간 후보: " ++ nlu.start.getD "" ++ " ~ " ++ nlu.endT.getD ""] else []
  let info3 : List String :=
    if truthyStr nlu.room_hint then ["• 방 힌트: " ++ nlu.room_hint.getD ""] else []
  let infos := info1 ++ info2 ++ info3
  let info_text := if infos = [] then "원하는 값을 선택하고 제출을 눌러주세요." else joinNl infos
  msg "🗓️ 회의실 예약"
    [⟨some "회의실 선택", none, none,
       [⟨"room", "select", "회의실", (if room_opts = [] then [noRoomOpt] else room_opts), none, none⟩], []⟩,
     ⟨some "시간 선택", some info_text, none,
       [⟨"start", "select", "시작", start_opts, none, none⟩,
        ⟨"end", "select", "종료", end_opts, none, none⟩], []⟩,
     ⟨none, none, some "meeting-submit",
       [⟨"submit", "button", "제출", [], some "submit", some "primary"⟩], []⟩,
     statusAtt [placeholderRow]]
    "inChannel" false false

/-- Half-open interval overlap on `"HH:MM"` strings:
`not (a_end <= b_start or b_end <= a_start)` with Python string comparison. -/
def overlaps (a_start a_end b_start b_end : String) : Bool :=
  !(pyLe a_end b_start || pyLe b_end a_start)

/-- `room_busy(room_id, start, end)`: some reservation for the room on the
given day overlaps the queried interval.  The reservation list and today's
date stand for `load_reservations()` and `datetime.now()`. -/
def room_busy (room_id start endv : String) (resv : List Reservation) (today : String) : Bool :=
  resv.any (fun r => r.roomId == room_id && r.date == today && overlaps start endv r.start r.endT)

/-- Session selection for one `(channelLogId, userId)` key: the three
independently settable fields (the `_ts` bookkeeping field carries no
behaviour read by the logic and is omitted). -/
structure Sel where
  room : Option String
  start : Option String
  endT : Option String
deriving DecidableEq

/-- The empty selection (`{}` for an absent key). -/
def emptySel : Sel := ⟨none, none, none⟩

/-- In-memory session map `_state`, an insertion-ordered mapping from
`(channelLogId, userId)` to the selection. -/
abbrev StateMap : Type := List ((String × String) × Sel)

/-- Overwrite the named field of a selection (`st.update({name: value})`). -/
def applyField (s : Sel) (field v : String) : Sel :=
  if field == "room" then { s with room := some v }
  else if field == "start" then { s with start := some v }
  else if field == "end" then { s with endT := some v }
  else s

/-- `set_state(chlog, uid, **{field: value})`: upsert the entry, overwriting
exactly the named field (position preserved for an existing key). -/
def set_state : StateMap → String → String → String → String → StateMap
  | [], c, u, f, v => [((c, u), applyField emptySel f v)]
  | (k, s) :: rest, c, u, f, v =>
    if k == (c, u) then (k, applyField s f v) :: rest
    else (k, s) :: set_state rest c u f v

/-- `get_state(chlog, uid)`: the stored selection, or the empty one. -/
def get_state (m : StateMap) (c u : String) : Sel :=
  match m.find? (fun kv => kv.1 == (c, u)) with
  | some kv => kv.2
  | none => emptySel

/-- Name of a room id in the directory dict `{r["id"]: r}` with the id itself
as fallback (`rooms.get(room_id, {}).get("name", room_id)`); a duplicated id
would keep the last record, hence the search from the right. -/
def roomName (rooms : List Room) (rid : String) : String :=
  match rooms.reverse.find? (fun r => r.id == rid) with
  | some r => r.name
  | none => rid

/-- Environment of one `/dooray/meeting/actions` request: the persisted room
directory and reservation list as read per request, today's date, the clock
timestamp used for the generated id, and whether the durable write succeeds. -/
structure Env where
  rooms : List Room
  resv : List Reservation
  today : String
  nowTs : Nat
  saveOk : Bool
deriving DecidableEq

/-- Fields of an actions callback after the transport-level extraction
(`parse_payload` plus the defaulted lookups of tenant, user and channel log). -/
structure ActionsInput where
  actionName : String
  actionValue : String
  originalMessage : Msg
  tenantId : String
  userId : String
  chlogId : String
deriving DecidableEq

/-- Response payload: the empty `{}` acknowledgement or a card message. -/
inductive Payload where
  | empty : Payload
  | message : Msg → Payload
deriving DecidableEq

/-- Result of one handler run: the HTTP payload (`none` when an uncaught
exception escapes the handler), the session map afterwards, and the
reservation list written by `save_reservations` (`none` when no durable
write happened). -/
structure ActionResult where
  payload : Option Payload
  state : StateMap
  saved : Option (List Reservation)
deriving DecidableEq

/-- Status update of the submit branch: decode the echoed original message,
ensure the display key exists, then drop the submitting user's previous
occurrences under that key and append the mention at the end. -/
def submit_status (original : Msg) (key tag : String) : Status :=
  let status := parse_status original
  let status := dictSetdefault status key
  dictSet status key ((((dictGet status key).getD []).filter (fun u => u != tag)) ++ [tag])

/-- Replacement loop over the original attachments: every attachment titled
`"예약 현황"` is replaced by the freshly encoded status attachment. -/
def replaceStatusAtts : List Attachment → List SField → List Attachment × Bool
  | [], _ => ([], false)
  | att :: rest, f =>
    let lr := replaceStatusAtts rest f
    if att.title == some "예약 현황" then (statusAtt f :: lr.1, true)
    else (att :: lr.1, lr.2)

/-- The replacement card of a successful submit: original text (with the
default title when falsy), the attachment list with the status section
replaced (or appended when absent), `inChannel`, `replaceOriginal`. -/
def submit_response (original : Msg) (fields : List SField) : Msg :=
  let lr := replaceStatusAtts original.attachments fields
  let new_atts := if lr.2 then lr.1 else lr.1 ++ [statusAtt fields]
  ⟨(if original.text = "" then "🗓️ 회의실 예약" else original.text),
   "inChannel", true, false, new_atts⟩

/-- Text of the incompleteness error. -/
def incompleteText : String := "회의실/시작/종료를 모두 선택해 주세요."

/-- Text of the conflict error. -/
def busyText : String :=
  "⚠️ 선택한 시간에 해당 회의실은 이미 예약되어 있어요. 시간을 바꾸거나 다른 회의실을 선택해 주세요."

/-- The `/dooray/meeting/actions` handler `meeting_actions` after body
parsing and token verification: dropdown changes store session state and
acknowledge with `{}`; `submit` validates completeness, checks availability,
appends and saves the reservation, merges the status block decoded from the
echoed original message and returns the replacement card; anything else is
acknowledged with `{}`.  A failing `save_reservations` raises out of the
handler before any response is built (`payload = none`). -/
def meeting_actions (env : Env) (state : StateMap) (inp : ActionsInput) : ActionResult :=
  let action_name := inp.actionName
  let action_value := pyStrip inp.actionValue
  if action_name == "room" || action_name == "start" || action_name == "end" then
    { payload := some Payload.empty,
      state := set_state state inp.chlogId inp.userId action_name action_value,
      saved := none }
  else if action_value == "submit" then
    let st := get_state state inp.chlogId inp.userId
    if !truthyStr st.room || !truthyStr st.start || !truthyStr st.endT then
      { payload := some (Payload.message (msg incompleteText [] "ephemeral" false false)),
        state := state, saved := none }
    else
      let room_id := st.room.getD ""
      let start := st.start.getD ""
      let endv := st.endT.getD ""
      if room_busy room_id start endv env.resv env.today then
        { payload := some (Payload.message (msg busyText [] "ephemeral" false false)),
          state := state, saved := none }
      else
        let title := roomName env.rooms room_id ++ " 예약"
        let new_rec : Reservation :=
          ⟨"RV-" ++ Nat.repr env.nowTs ++ "-" ++ inp.userId, env.today, room_id,
           start, endv, title, inp.userId⟩
        let resv2 := env.resv ++ [new_rec]
        if env.saveOk then
          let key := roomName env.rooms room_id ++ " " ++ start ++ "~" ++ endv
          let tag := mention inp.tenantId inp.userId "member"
          let status := submit_status inp.originalMessage key tag
          { payload := some (Payload.message (submit_response inp.originalMessage (status_fields status))),
            state := state, saved := some resv2 }
        else
          { payload := none, state := state, saved := none }
  else
    { payload := some Payload.empty, state := state, saved := none }

/-- Rows of the status sections among a list of attachments. -/
def attRows : List Attachment → List SField
  | [] => []
  | a :: l => if a.title == some "예약 현황" then a.fields ++ attRows l else attRows l

/-- Rows of the status sections of a card (fields of every attachment titled
`"예약 현황"`, in order). -/
def statusRows (m : Msg) : List SField :=
  attRows m.attachments

/-- Value of the first status row with the given key (empty when absent). -/
def statusValueAt (m : Msg) (key : String) : String :=
  match (statusRows m).find? (fun f => f.title == key) with
  | some f => f.value
  | none => ""

/-- Number of positions at which `pat` occurs inside `s` (substring
occurrences, counting overlaps). -/
def countOccStr (s pat : String) : Nat :=
  ((List.range (s.toList.length + 1)).filter
    (fun i => pat.toList.isPrefixOf (s.toList.drop i))).length

/-- Destructure a card payload (default empty card otherwise). -/
def payloadMsg : Option Payload → Msg
  | some (Payload.message m) => m
  | _ => ⟨"", "", false, false, []⟩

/-- Whether a handler result carries a card message (as opposed to the empty
acknowledgement or an escaped exception). -/
def isMessagePayload : Option Payload → Bool
  | some (Payload.message _) => true
  | _ => false

/-- Options of the room selector of a rendered card (first action of the
first attachment). -/
def roomSelOptions (m : Msg) : List SelectOpt :=
  match m.attachments with
  | a :: _ =>
    match a.actions with
    | act :: _ => act.options
    | [] => []
  | [] => []

/-- The empty hint the command endpoint uses when no text is given. -/
def defaultNlu : Nlu := ⟨none, none, none, none, ""⟩

/-- The default/blank card rendered for a bare command. -/
def freshCard : Msg := build_template_ui load_rooms defaultNlu

/-- Scenario environment: seeded rooms, no reservations yet, a fixed day and
clock, durable writes succeeding. -/
def env0 : Env := ⟨sample_rooms, [], "2025-06-01", 1000, true⟩

/-- Session map after the scenario-B dropdown events
`room=R301`, `start=09:00`, `end=10:00` for `(ch1, u1)`. -/
def st3 : StateMap :=
  (meeting_actions env0
    ((meeting_actions env0
      ((meeting_actions env0 [] ⟨"room", "R301", freshCard, "tenant", "u1", "ch1"⟩).state)
      ⟨"start", "09:00", freshCard, "tenant", "u1", "ch1"⟩).state)
    ⟨"end", "10:00", freshCard, "tenant", "u1", "ch1"⟩).state

/-- The scenario-B submit callback (original message echoed back is the
fresh card). -/
def submitInpB : ActionsInput := ⟨"submit", "submit", freshCard, "tenant", "u1", "ch1"⟩

/-- Handler result of the scenario-B submit. -/
def respB : ActionResult := meeting_actions env0 st3 submitInpB

/-- Scenario-B submit with a failing durable write. -/
def c9resp : ActionResult := meeting_actions { env0 with saveOk := false } st3 submitInpB

/-- Session map for the degenerate selection `room=R301`, `start=10:00`,
`end=09:00` (the UI does not validate that the end is after the start). -/
def stX : StateMap :=
  (meeting_actions env0
    ((meeting_actions env0
      ((meeting_actions env0 [] ⟨"room", "R301", freshCard, "tenant", "u1", "ch1"⟩).state)
      ⟨"start", "10:00", freshCard, "tenant", "u1", "ch1"⟩).state)
    ⟨"end", "09:00", freshCard, "tenant", "u1", "ch1"⟩).state

/-- First submit of the degenerate two-submit flow. -/
def c1resp1 : ActionResult := meeting_actions env0 stX ⟨"submit", "submit", freshCard, "tenant", "u1", "ch1"⟩

/-- Card returned by the first degenerate submit. -/
def c1card1 : Msg := payloadMsg c1resp1.payload

/-- Second submit of the degenerate flow: the reservation list now holds the
first write, and the echoed original message is the first submit's card. -/
def c1resp2 : ActionResult :=
  meeting_actions { env0 with resv := c1resp1.saved.getD [] } stX
    ⟨"submit", "submit", c1card1, "tenant", "u1", "ch1"⟩

/-- Card returned by the second degenerate submit. -/
def c1card2 : Msg := payloadMsg c1resp2.payload

/-- C2: end-to-end scenario B (dropdown-change `room=R301`, `start=09:00`,
`end=10:00`, then submit on the fresh card with no prior reservations)
returns a replace-original card, but its status section holds TWO rows, not
one: `parse_status` re-ingests the placeholder row `"아직 없음"` of the fresh
card as a status entry (its placeholder text split into pseudo-mentions), and
the encoded section carries it alongside the genuine row
`"3층 대회의실 09:00~10:00"` with the single mention. -/
theorem C2_statusSectionHasTwoRows :
    isMessagePayload respB.payload = true ∧
    (payloadMsg respB.payload).replaceOriginal = true ∧
    statusRows (payloadMsg respB.payload) =
      [placeholderRow,
       ⟨"3층 대회의실 09:00~10:00", mention "tenant" "u1" "member", false⟩] ∧
    (statusRows (payloadMsg respB.payload)).length ≠ 1 := by
  refine ⟨rfl, rfl, by decide, by decide⟩

/-- C4 counterexample: for the command text `"3층 9~11 회의실"` the extractor
does yield floor 3, 09:00, 11:00 and the whole text as room hint, but no
room id or name of the directory occurs inside that hint text, so the hint
filter removes every floor-3 room and the rendered room selector is exactly
the `__none__` placeholder — contradicting the claim that it contains the
floor-3 rooms and is not a placeholder selector. -/
theorem C4_placeholderSelector :
    parse_natural "3층 9~11 회의실" =
      some ⟨some 3, some "3층 9~11 회의실", some "09:00", some "11:00", "3층 9~11 회의실"⟩ ∧
    roomSelOptions
      (build_template_ui load_rooms
        ⟨some 3, some "3층 9~11 회의실", some "09:00", some "11:00", "3층 9~11 회의실"⟩) =
      [noRoomOpt] := by
  exact ⟨by decide, by decide⟩

/-- C4 amended: command text `"3층 9~11 회의실"` yields floor=3,
start=09:00, end=11:00 and the entire text as room hint; the hint filter
(room token searched inside the hint text) then eliminates all floor-3 rooms
because neither `R301`/`R302`/`R303` nor their Korean names occur inside the
command text, so the card's room selector contains only the placeholder
option `(회의실 없음)` with value `__none__`. -/
theorem C4_amended_extractorAndPlaceholder :
    parse_natural "3층 9~11 회의실" =
      some ⟨some 3, some "3층 9~11 회의실", some "09:00", some "11:00", "3층 9~11 회의실"⟩ ∧
    room_options sample_rooms (some 3) (some "3층 9~11 회의실") = [] ∧
    (sample_rooms.filter (fun r => r.floor == 3)).length = 3 ∧
    roomSelOptions
      (build_template_ui load_rooms
        ⟨some 3, some "3층 9~11 회의실", some "09:00", some "11:00", "3층 9~11 회의실"⟩) =
      [⟨"(회의실 없음)", "__none__"⟩] := by
  exact ⟨by decide, by decide, by decide, by decide⟩

/-- C5 counterexample: the whitespace-stripped text `"25~26"` matches the
time-range shape with a 2-digit out-of-range hour, and the extractor does
NOT return a hint structure: `datetime(..., 25, 0)` raises `ValueError`
(modelled as `none`), contradicting out-of-range hours being accepted. -/
theorem C5_outOfRangeHourRaises :
    searchTime (timeSearchInput (pyStrip "25~26")) =
      some ⟨25, none, 26, none⟩ ∧
    parse_natural "25~26" = none := by
  exact ⟨by decide, by decide⟩

/-- C6 counterexample: `"9~8"` matches the pattern with parsed end 08:00 not
after parsed start 09:00; the code adds one hour to the END (08:00 → 09:00),
so the output end equals the start `"09:00"` instead of being one hour after
the start (`"10:00"`) as claimed. -/
theorem C6_endNotOneHourAfterStart :
    parse_natural "9~8" = some ⟨none, none, some "09:00", some "09:00", "9~8"⟩ ∧
    some "09:00" ≠ some "10:00" := by
  exact ⟨by decide, by decide⟩

/-- C9 counterexample: a complete, conflict-free submit whose durable write
fails produces NO response payload at all — the exception from
`save_reservations` escapes the handler (HTTP 500 at the transport), so no
user-visible card/message-schema error is returned, contradicting the claim. -/
theorem C9_writeFailureEscapes :
    c9resp.payload = none ∧
    isMessagePayload c9resp.payload = false ∧
    c9resp.state = st3 ∧
    c9resp.saved = none := by
  exact ⟨by decide, by decide, by decide, by decide⟩

/-- C1 counterexample: with the degenerate selection `start=10:00`,
`end=09:00` (which the UI permits), submitting twice through the full flow —
the second submit decoding the status block of the first card — renders the
user's mention TWICE under the key `"3층 대회의실 10:00~09:00"`: the
degenerate interval never overlaps itself, so the second submit passes the
availability check, and the codec has split the stored mention at its inner
space, so the dedup filter misses it.  The claim's count of one atomic
occurrence fails. -/
theorem C1_degenerateDoubleMention :
    isMessagePayload c1resp2.payload = true ∧
    c1card2.replaceOriginal = true ∧
    statusValueAt c1card2 "3층 대회의실 10:00~09:00" =
      mention "tenant" "u1" "member" ++ " " ++ mention "tenant" "u1" "member" ∧
    countOccStr (statusValueAt c1card2 "3층 대회의실 10:00~09:00")
      (mention "tenant" "u1" "member") = 2 := by
  exact ⟨by decide, by decide, by decide, by decide⟩

/-- C3 counterexample: encoding the singleton mapping that holds one
system-constructed mention token and decoding it back does not return the
mapping: the codec splits the mention at its internal space into two
fragments, so the round trip fails for mention tokens as constructed by
`mention`, contradicting the claim that the codec never splits them. -/
theorem C3_mentionTokenSplitByCodec :
    parse_status (encodeStatusMsg [("K", [mention "t" "u" "member"])]) =
      [("K", ["(dooray://t/members/u", "\"member\")"])] ∧
    parse_status (encodeStatusMsg [("K", [mention "t" "u" "member"])]) ≠
      [("K", [mention "t" "u" "member"])] := by
  exact ⟨by decide, by decide⟩

theorem attRows_append (l1 l2 : List Attachment) :
    attRows (l1 ++ l2) = attRows l1 ++ attRows l2 := by
  induction l1 with
  | nil => simp [attRows]
  | cons a l ih =>
    by_cases h : a.title == some "예약 현황" <;> simp [attRows, h, ih]

theorem mem_attRows_replace (atts : List Attachment) (f : List SField) (x : SField)
    (hx : x ∈ f) :
    x ∈ attRows (if (replaceStatusAtts atts f).2 then (replaceStatusAtts atts f).1
                 else (replaceStatusAtts atts f).1 ++ [statusAtt f]) := by
  induction atts with
  | nil => simp [replaceStatusAtts, attRows, statusAtt, hx]
  | cons a l ih =>
    by_cases h : a.title == some "예약 현황"
    · simp [replaceStatusAtts, h, attRows, statusAtt, hx]
    · cases hrep : (replaceStatusAtts l f).2 with
      | true =>
        simp only [replaceStatusAtts, h, hrep] at ih ⊢
        simpa [attRows, h] using ih
      | false =>
        simp only [replaceStatusAtts, h, hrep] at ih ⊢
        simpa [attRows_append, attRows, h] using ih

theorem mem_statusRows_submit_response (original : Msg) (f : List SField) (x : SField)
    (hx : x ∈ f) : x ∈ statusRows (submit_response original f) := by
  simpa [statusRows, submit_response] using
    mem_attRows_replace original.attachments f x hx

theorem mem_keys_dictSet (d : Status) (k : String) (v : List String) :
    k ∈ (dictSet d k v).map Prod.fst := by
  induction d with
  | nil => simp [dictSet]
  | cons kv rest ih =>
    obtain ⟨k0, v0⟩ := kv
    by_cases h : k0 == k
    · simp [dictSet, h, beq_iff_eq.mp h]
    · simp [dictSet, h, ih]

theorem exists_field_of_mem_keys (d : Status) (k : String)
    (hk : k ∈ d.map Prod.fst) : ∃ x ∈ status_fields d, x.title = k := by
  have hd : d ≠ [] := by
    intro h
    rw [h] at hk
    simp at hk
  obtain ⟨kv, hkv, hk1⟩ := List.mem_map.mp hk
  refine ⟨⟨kv.1, if kv.2 = [] then "-" else pyJoinSp kv.2, false⟩, ?_, hk1⟩
  simp only [status_fields, if_neg hd]
  exact List.mem_map.mpr ⟨kv, hkv, rfl⟩

theorem roomName_notFound (rooms : List Room) (rid : String)
    (h : ∀ r ∈ rooms, r.id ≠ rid) : roomName rooms rid = rid := by
  have : rooms.reverse.find? (fun r => r.id == rid) = none := by
    rw [List.find?_eq_none]
    intro r hr
    simp [h r (List.mem_reverse.mp hr)]
  simp [roomName, this]

theorem mem_keys_submit_status (original : Msg) (key tag : String) :
    key ∈ (submit_status original key tag).map Prod.fst := by
  simp only [submit_status]
  exact mem_keys_dictSet _ key _

theorem count_dedup (l : List String) (tag : String) :
    ((l.filter (fun u => u != tag)) ++ [tag]).count tag = 1 := by
  rw [List.count_append]
  have h0 : (l.filter (fun u => u != tag)).count tag = 0 := by
    rw [List.count_eq_zero]
    intro hmem
    have := List.of_mem_filter hmem
    simp at this
  simp [h0, List.count_singleton]

theorem dictGet_dictSet_self (d : Status) (k : String) (v : List String) :
    dictGet (dictSet d k v) k = some v := by
  induction d with
  | nil => simp [dictSet, dictGet]
  | cons kv rest ih =>
    obtain ⟨k0, v0⟩ := kv
    by_cases h : k0 == k
    · simp [dictSet, h, dictGet, List.find?]
    · simp only [dictSet, h, if_false, Bool.false_eq_true]
      simp only [dictGet, List.find?]
      simp only [h]
      exact ih

theorem room_busy_append_self (r s e today : String) (resv : List Reservation)
    (rec : Reservation) (hroom : rec.roomId = r) (hdate : rec.date = today)
    (hs : rec.start = s) (he : rec.endT = e) (hlt : strLtB s e = true) :
    room_busy r s e (resv ++ [rec]) today = true := by
  simp only [room_busy, List.any_append, Bool.or_eq_true]
  right
  simp [hroom, hdate, hs, he, overlaps, pyLe, hlt]

theorem splitSp_no_space (cs : List Char) (h : ∀ c ∈ cs, (c == ' ') = false) :
    splitSp cs = [cs] := by
  induction cs with
  | nil => rfl
  | cons c cs ih =>
    have hc := h c (List.mem_cons_self c cs)
    have ih' := ih (fun c hc => h c (List.mem_cons_of_mem _ hc))
    simp [splitSp, ih', hc]

theorem splitSp_append (t rest : List Char) (h : ∀ c ∈ t, (c == ' ') = false) :
    splitSp (t ++ ' ' :: rest) = t :: splitSp rest := by
  induction t with
  | nil => simp [splitSp]
  | cons a t ih =>
    have ha := h a (List.mem_cons_self a t)
    have ih' := ih (fun c hc => h c (List.mem_cons_of_mem _ hc))
    simp [splitSp, ih', ha]

theorem joinSp_snoc (l : List (List Char)) (x : List Char) (hl : l ≠ []) :
    joinSp (l ++ [x]) = joinSp l ++ ' ' :: x := by
  induction l with
  | nil => exact absurd rfl hl
  | cons t l ih =>
    cases l with
    | nil => simp [joinSp]
    | cons u l' =>
      have ih' := ih (by simp)
      simp only [List.cons_append, joinSp] at ih' ⊢
      simp [ih']

theorem joinSp_reverse (ts : List (List Char)) (h : ts ≠ []) :
    (joinSp ts).reverse = joinSp ((ts.reverse).map List.reverse) := by
  induction ts with
  | nil => exact absurd rfl h
  | cons t ts ih =>
    cases ts with
    | nil => simp [joinSp]
    | cons u ts' =>
      have ih' := ih (by simp)
      simp only [List.reverse_cons, List.map_append, List.map_cons, List.map_nil] at ih'
      have hne : (List.map List.reverse ts'.reverse ++ [u.reverse]) ≠ [] := by simp
      simp only [joinSp, List.reverse_cons, List.map_append, List.map_cons, List.map_nil]
      rw [joinSp_snoc _ _ hne, ← ih']
      simp

theorem head_join (ts : List (List Char)) (h1 : ts ≠ [])
    (h2 : ∀ t ∈ ts, t ≠ []) (h3 : ∀ t ∈ ts, ∀ c ∈ t, isPyWs c = false) :
    List.dropWhile isPyWs (joinSp ts) = joinSp ts := by
  obtain ⟨t, ts', rfl⟩ : ∃ t ts', ts = t :: ts' := by
    cases ts with
    | nil => exact absurd rfl h1
    | cons t ts' => exact ⟨t, ts', rfl⟩
  obtain ⟨c, t', rfl⟩ : ∃ c t', t = c :: t' := by
    cases t with
    | nil => exact absurd rfl (h2 [] (List.mem_cons_self _ _))
    | cons c t' => exact ⟨c, t', rfl⟩
  have hc : isPyWs c = false :=
    h3 _ (List.mem_cons_self _ _) c (List.mem_cons_self c t')
  cases ts' with
  | nil => simp [joinSp, List.dropWhile_cons, hc]
  | cons u ts'' => simp [joinSp, List.dropWhile_cons, hc]

theorem strip_join (ts : List (List Char)) (h1 : ts ≠ [])
    (h2 : ∀ t ∈ ts, t ≠ []) (h3 : ∀ t ∈ ts, ∀ c ∈ t, isPyWs c = false) :
    stripChars (joinSp ts) = joinSp ts := by
  unfold stripChars
  rw [head_join ts h1 h2 h3]
  rw [joinSp_reverse ts h1]
  have h1' : (ts.reverse.map List.reverse) ≠ [] := by
    cases ts with
    | nil => exact absurd rfl h1
    | cons t ts' => simp
  have h2' : ∀ t ∈ ts.reverse.map List.reverse, t ≠ [] := by
    intro t ht
    obtain ⟨u, hu, rfl⟩ := List.mem_map.mp ht
    have := h2 u (List.mem_reverse.mp hu)
    simp [this]
  have h3' : ∀ t ∈ ts.reverse.map List.reverse, ∀ c ∈ t, isPyWs c = false := by
    intro t ht c hc
    obtain ⟨u, hu, rfl⟩ := List.mem_map.mp ht
    exact h3 u (List.mem_reverse.mp hu) c (List.mem_reverse.mp hc)
  rw [head_join _ h1' h2' h3']
  rw [← joinSp_reverse ts h1]
  simp

theorem tokens_join (ts : List (List Char)) (h1 : ts ≠ [])
    (h2 : ∀ t ∈ ts, t ≠ []) (h3 : ∀ t ∈ ts, ∀ c ∈ t, isPyWs c = false) :
    splitSp (joinSp ts) = ts := by
  induction ts with
  | nil => exact absurd rfl h1
  | cons t ts ih =>
    have hsp : ∀ c ∈ t, (c == ' ') = false := by
      intro c hc
      have := h3 t (List.mem_cons_self _ _) c hc
      by_contra hne
      rw [Bool.not_eq_false, beq_iff_eq] at hne
      subst hne
      simp [isPyWs] at this
    cases ts with
    | nil => simp [joinSp, splitSp_no_space t hsp]
    | cons u ts' =>
      have ih' := ih (by simp)
        (fun x hx => h2 x (List.mem_cons_of_mem _ hx))
        (fun x hx => h3 x (List.mem_cons_of_mem _ hx))
      simp only [joinSp]
      rw [splitSp_append t _ hsp, ih']

theorem strMk_toList (s : String) : String.mk s.toList = s := rfl

theorem decode_value (v : List String) (hv : v ≠ [])
    (hts : ∀ t ∈ v, t ≠ "" ∧ ∀ c ∈ t.toList, isPyWs c = false) :
    (pySplitSp (pyStrip (pyJoinSp v))).filter (fun x => x != "") = v := by
  have h1 : (v.map String.toList) ≠ [] := by
    cases v with
    | nil => exact absurd rfl hv
    | cons t v' => simp
  have h2 : ∀ t ∈ v.map String.toList, t ≠ [] := by
    intro t ht
    obtain ⟨u, hu, rfl⟩ := List.mem_map.mp ht
    have := (hts u hu).1
    intro hnil
    exact this (by rw [← strMk_toList u, hnil])
  have h3 : ∀ t ∈ v.map String.toList, ∀ c ∈ t, isPyWs c = false := by
    intro t ht c hc
    obtain ⟨u, hu, rfl⟩ := List.mem_map.mp ht
    exact (hts u hu).2 c hc
  have hstrip : pyStrip (pyJoinSp v) = String.mk (joinSp (v.map String.toList)) := by
    show String.mk (stripChars (joinSp (v.map String.toList))) = _
    rw [strip_join _ h1 h2 h3]
  rw [hstrip]
  have hsplit : pySplitSp (String.mk (joinSp (v.map String.toList))) =
      (v.map String.toList).map String.mk := by
    show (splitSp (joinSp (v.map String.toList))).map String.mk = _
    rw [tokens_join _ h1 h2 h3]
  rw [hsplit]
  have hmk : (v.map String.toList).map String.mk = v := by
    rw [List.map_map]
    have : (String.mk ∘ String.toList) = id := by
      funext s
      exact strMk_toList s
    rw [this, List.map_id]
  rw [hmk]
  rw [List.filter_eq_self]
  intro a ha
  simp [bne_iff_ne, (hts a ha).1]

theorem dictSet_append_of_not_mem (d : Status) (k : String) (v : List String)
    (h : k ∉ d.map Prod.fst) : dictSet d k v = d ++ [(k, v)] := by
  induction d with
  | nil => rfl
  | cons kv rest ih =>
    obtain ⟨k0, v0⟩ := kv
    simp only [List.map_cons, List.mem_cons] at h
    push_neg at h
    have hk0 : (k0 == k) = false := by
      rw [beq_eq_false_iff_ne]
      exact fun he => h.1 he.symm
    simp [dictSet, hk0, ih h.2]

theorem decode_fold (m acc : Status)
    (hdisj : ∀ kv ∈ m, kv.1 ∉ acc.map Prod.fst)
    (hnodup : (m.map Prod.fst).Nodup)
    (hkeys : ∀ kv ∈ m, kv.1 ≠ "")
    (hvals : ∀ kv ∈ m, kv.2 ≠ [] ∧ ∀ t ∈ kv.2, t ≠ "" ∧ ∀ c ∈ t.toList, isPyWs c = false) :
    (m.map (fun kv => (⟨kv.1, if kv.2 = [] then "-" else pyJoinSp kv.2, false⟩ : SField))).foldl
      (fun out f =>
        if f.title != "" then
          dictSet out f.title ((pySplitSp (pyStrip f.value)).filter (fun x => x != ""))
        else out)
      acc = acc ++ m := by
  induction m generalizing acc with
  | nil => simp
  | cons kv m' ih =>
    obtain ⟨k, v⟩ := kv
    have hk : k ≠ "" := hkeys _ (List.mem_cons_self _ _)
    have hv := hvals _ (List.mem_cons_self _ _)
    have hvne : v ≠ [] := hv.1
    simp only [List.map_cons, List.foldl_cons]
    rw [if_neg hvne]
    have hstep : (if k != "" then
        dictSet acc k ((pySplitSp (pyStrip (pyJoinSp v))).filter (fun x => x != ""))
        else acc) = acc ++ [(k, v)] := by
      rw [if_pos (by simpa [bne_iff_ne] using hk)]
      rw [decode_value v hvne hv.2]
      exact dictSet_append_of_not_mem acc k v (hdisj _ (List.mem_cons_self _ _))
    rw [hstep]
    have hcons : (k :: m'.map Prod.fst).Nodup := by simpa using hnodup
    have hknotin : k ∉ m'.map Prod.fst := (List.nodup_cons.mp hcons).1
    have hnodup' : (m'.map Prod.fst).Nodup := (List.nodup_cons.mp hcons).2
    have hdisj' : ∀ kv ∈ m', kv.1 ∉ (acc ++ [(k, v)]).map Prod.fst := by
      intro kv2 hkv2
      rw [List.map_append, List.mem_append]
      push_neg
      refine ⟨hdisj kv2 (List.mem_cons_of_mem _ hkv2), ?_⟩
      simp only [List.map_cons, List.map_nil, List.mem_singleton]
      intro he
      exact hknotin (he ▸ List.mem_map.mpr ⟨kv2, hkv2, rfl⟩)
    have := ih (acc ++ [(k, v)]) hdisj' hnodup'
      (fun kv hkv => hkeys kv (List.mem_cons_of_mem _ hkv))
      (fun kv hkv => hvals kv (List.mem_cons_of_mem _ hkv))
    rw [this]
    simp

/-- C1 (amended): for a complete selection with `start < end` (string order
on the zero-padded times), a first submit succeeds and its computed status
holds the submitting user's mention exactly once (as an atomic list element)
under the display key; and for ANY echoed card and clock value, a second
submit for the same `(room, start, end, user)` is rejected by the
availability check (the just-written reservation overlaps itself), answered
with the ephemeral conflict message that does not replace the card — so the
displayed status still holds exactly one occurrence of the mention.  The
original claim without the `start < end` restriction is refuted by
`C1_degenerateDoubleMention`. -/
theorem C1_amended_secondSubmitConflict (env : Env) (state : StateMap) (inp : ActionsInput)
    (r s e : String)
    (h1 : inp.actionName ≠ "room") (h2 : inp.actionName ≠ "start") (h3 : inp.actionName ≠ "end")
    (h4 : pyStrip inp.actionValue = "submit")
    (hst : get_state state inp.chlogId inp.userId = ⟨some r, some s, some e⟩)
    (hr : r ≠ "") (hs : s ≠ "") (he : e ≠ "")
    (hlt : strLtB s e = true)
    (hbusy : room_busy r s e env.resv env.today = false)
    (hsave : env.saveOk = true) :
    (meeting_actions env state inp).payload =
      some (Payload.message (submit_response inp.originalMessage
        (status_fields (submit_status inp.originalMessage
          (roomName env.rooms r ++ " " ++ s ++ "~" ++ e)
          (mention inp.tenantId inp.userId "member"))))) ∧
    (meeting_actions env state inp).saved =
      some (env.resv ++ [⟨"RV-" ++ Nat.repr env.nowTs ++ "-" ++ inp.userId, env.today, r, s, e,
        roomName env.rooms r ++ " 예약", inp.userId⟩]) ∧
    ((dictGet (submit_status inp.originalMessage
        (roomName env.rooms r ++ " " ++ s ++ "~" ++ e)
        (mention inp.tenantId inp.userId "member"))
      (roomName env.rooms r ++ " " ++ s ++ "~" ++ e)).getD []).count
        (mention inp.tenantId inp.userId "member") = 1 ∧
    ∀ (ts2 : Nat) (echoed : Msg),
      meeting_actions
        { env with
          resv := env.resv ++ [⟨"RV-" ++ Nat.repr env.nowTs ++ "-" ++ inp.userId,
            env.today, r, s, e, roomName env.rooms r ++ " 예약", inp.userId⟩],
          nowTs := ts2 }
        state { inp with originalMessage := echoed } =
      { payload := some (Payload.message (msg busyText [] "ephemeral" false false)),
        state := state, saved := none } := by
  refine ⟨?_, ?_, ?_, ?_⟩
  · simp [meeting_actions, h1, h2, h3, h4, hst, hr, hs, he, hbusy, hsave, truthyStr]
  · simp [meeting_actions, h1, h2, h3, h4, hst, hr, hs, he, hbusy, hsave, truthyStr]
  · rw [submit_status]
    rw [dictGet_dictSet_self]
    exact count_dedup _ _
  · intro ts2 echoed
    have hbusy2 : room_busy r s e
        (env.resv ++ [⟨"RV-" ++ Nat.repr env.nowTs ++ "-" ++ inp.userId,
          env.today, r, s, e, roomName env.rooms r ++ " 예약", inp.userId⟩]) env.today = true :=
      room_busy_append_self r s e env.today env.resv _ rfl rfl rfl rfl hlt
    simp [meeting_actions, h1, h2, h3, h4, hst, hr, hs, he, hbusy2, truthyStr]

/-- C1 witness: the amended theorem applied to the concrete scenario-B
selection `R301 09:00~10:00` with the fresh card echoed back. -/
theorem C1_amended_secondSubmitConflict_witness :
    strLtB "09:00" "10:00" = true ∧
    room_busy "R301" "09:00" "10:00" env0.resv env0.today = false ∧
    ((dictGet (submit_status freshCard "3층 대회의실 09:00~10:00"
        (mention "tenant" "u1" "member")) "3층 대회의실 09:00~10:00").getD []).count
      (mention "tenant" "u1" "member") = 1 ∧
    meeting_actions
      { env0 with
        resv := env0.resv ++
          [⟨"RV-1000-u1", env0.today, "R301", "09:00", "10:00", "3층 대회의실 예약", "u1"⟩],
        nowTs := 77 }
      st3 { submitInpB with originalMessage := freshCard } =
      { payload := some (Payload.message (msg busyText [] "ephemeral" false false)),
        state := st3, saved := none } :=
  ⟨by decide, by decide,
   (C1_amended_secondSubmitConflict env0 st3 submitInpB "R301" "09:00" "10:00"
     (by decide) (by decide) (by decide) (by decide) (by decide) (by decide) (by decide)
     (by decide) (by decide) (by decide) (by decide)).2.2.1,
   (C1_amended_secondSubmitConflict env0 st3 submitInpB "R301" "09:00" "10:00"
     (by decide) (by decide) (by decide) (by decide) (by decide) (by decide) (by decide)
     (by decide) (by decide) (by decide) (by decide)).2.2.2 77 freshCard⟩

/-- C3 (amended): the status codec round trip `decode(encode(m)) = m` holds
for every non-empty mapping with non-empty, pairwise-distinct keys and
non-empty per-key token lists whose tokens are non-empty and contain no
whitespace (in particular no space).  The unamended claim over
system-constructed mention tokens is refuted by `C3_mentionTokenSplitByCodec`:
a mention contains a space and the decoder splits values on spaces. -/
theorem C3_amended_roundTripSpaceFreeTokens (m : Status)
    (hne : m ≠ [])
    (hnodup : (m.map Prod.fst).Nodup)
    (hkeys : ∀ kv ∈ m, kv.1 ≠ "")
    (hvals : ∀ kv ∈ m, kv.2 ≠ [] ∧ ∀ t ∈ kv.2, t ≠ "" ∧ ∀ c ∈ t.toList, isPyWs c = false) :
    parse_status (encodeStatusMsg m) = m := by
  have h := decode_fold m [] (by simp) hnodup hkeys hvals
  simp only [parse_status, encodeStatusMsg, statusAtt, List.foldl_cons, List.foldl_nil]
  rw [if_pos (by rfl)]
  simp only [status_fields, if_neg hne]
  simpa using h

/-- C3 witness: the amended round trip evaluated on a two-key mapping whose
tokens are whitespace-free. -/
theorem C3_amended_roundTripSpaceFreeTokens_witness :
    ([("3층 대회의실 09:00~10:00", ["alice", "bob"]), ("4층 라운지룸 13:00~14:00", ["carol"])]
        : Status) ≠ [] ∧
    ((([("3층 대회의실 09:00~10:00", ["alice", "bob"]),
        ("4층 라운지룸 13:00~14:00", ["carol"])] : Status).map Prod.fst).Nodup) ∧
    (∀ kv ∈ ([("3층 대회의실 09:00~10:00", ["alice", "bob"]),
        ("4층 라운지룸 13:00~14:00", ["carol"])] : Status), kv.1 ≠ "") ∧
    (∀ kv ∈ ([("3층 대회의실 09:00~10:00", ["alice", "bob"]),
        ("4층 라운지룸 13:00~14:00", ["carol"])] : Status),
      kv.2 ≠ [] ∧ ∀ t ∈ kv.2, t ≠ "" ∧ ∀ c ∈ t.toList, isPyWs c = false) ∧
    parse_status (encodeStatusMsg
      [("3층 대회의실 09:00~10:00", ["alice", "bob"]), ("4층 라운지룸 13:00~14:00", ["carol"])]) =
      [("3층 대회의실 09:00~10:00", ["alice", "bob"]), ("4층 라운지룸 13:00~14:00", ["carol"])] :=
  ⟨by decide, by decide, by decide, by decide,
   C3_amended_roundTripSpaceFreeTokens _ (by decide) (by decide) (by decide) (by decide)⟩

/-- C5 (amended): the extractor raises (returns no hint structure) exactly
when the whitespace-stripped text matches the time-range pattern with an
hour capture above 23 or a minute capture above 59 — out-of-range values
make `datetime(...)` raise `ValueError` instead of being accepted.  On every
other input it returns a hint structure.  The unamended claim is refuted by
`C5_outOfRangeHourRaises`. -/
theorem C5_amended_extractorErrorIff (text : String) :
    parse_natural text = none ↔
    ∃ c, searchTime (timeSearchInput (pyStrip text)) = some c ∧ validTime c = false := by
  cases h : searchTime (timeSearchInput (pyStrip text)) with
  | none => simp [parse_natural, h]
  | some c =>
    cases hv : validTime c with
    | false => simp [parse_natural, h, hv]
    | true => simp [parse_natural, h, hv]

/-- C6 (amended): when the matched range has valid hour/minute captures and
the parsed end is not after the parsed start, the extractor outputs an end
exactly one hour after the parsed END time (wrapping past midnight through
the `%H:%M` rendering), zero-padded — not one hour after the start.  The
claim's "one hour after the start" reading is refuted by
`C6_endNotOneHourAfterStart`. -/
theorem C6_amended_endIsParsedEndPlusOneHour (text : String) (c : TimeCap)
    (hm : searchTime (timeSearchInput (pyStrip text)) = some c)
    (hv : validTime c = true) (hle : endMin c ≤ startMin c) :
    ∃ nlu, parse_natural text = some nlu ∧
      nlu.start = some (fmtOfMin (startMin c)) ∧
      nlu.endT = some (fmtOfMin (endMin c + 60)) := by
  simp [parse_natural, hm, hv, hle]

/-- C6 witness: the amended theorem applied to the input `"9~8"`. -/
theorem C6_amended_endIsParsedEndPlusOneHour_witness :
    searchTime (timeSearchInput (pyStrip "9~8")) = some ⟨9, none, 8, none⟩ ∧
    validTime ⟨9, none, 8, none⟩ = true ∧
    endMin ⟨9, none, 8, none⟩ ≤ startMin ⟨9, none, 8, none⟩ ∧
    (∃ nlu, parse_natural "9~8" = some nlu ∧
      nlu.start = some (fmtOfMin (startMin ⟨9, none, 8, none⟩)) ∧
      nlu.endT = some (fmtOfMin (endMin ⟨9, none, 8, none⟩ + 60))) :=
  ⟨by decide, by decide, by decide,
   C6_amended_endIsParsedEndPlusOneHour "9~8" ⟨9, none, 8, none⟩
     (by decide) (by decide) (by decide)⟩

/-- C7: `room_busy` returns true exactly when some reservation of the given
room on the given day overlaps the queried interval under the half-open
rule — two intervals overlap unless `aEnd <= bStart` or `bEnd <= aStart`,
with Python's lexicographic string comparison on the `"HH:MM"` values. -/
theorem C7_roomBusyIffOverlap (rid s e : String) (resv : List Reservation) (today : String) :
    room_busy rid s e resv today = true ↔
    ∃ r ∈ resv, r.roomId = rid ∧ r.date = today ∧
      ¬(pyLe e r.start = true ∨ pyLe r.endT s = true) := by
  simp [room_busy, List.any_eq_true, overlaps, not_or, and_assoc]

/-- C8: a submit whose session state misses room, start or end (absent or
empty after Python truthiness) is answered with the ephemeral
"select all three" message that does not replace the card, the session map
is unchanged and no durable write happens. -/
theorem C8_incompleteSubmitNoMutation (env : Env) (state : StateMap) (inp : ActionsInput)
    (h1 : inp.actionName ≠ "room") (h2 : inp.actionName ≠ "start") (h3 : inp.actionName ≠ "end")
    (h4 : pyStrip inp.actionValue = "submit")
    (h5 : truthyStr (get_state state inp.chlogId inp.userId).room = false ∨
          truthyStr (get_state state inp.chlogId inp.userId).start = false ∨
          truthyStr (get_state state inp.chlogId inp.userId).endT = false) :
    meeting_actions env state inp =
      { payload := some (Payload.message (msg incompleteText [] "ephemeral" false false)),
        state := state, saved := none } := by
  rcases h5 with h5 | h5 | h5 <;>
    simp [meeting_actions, h1, h2, h3, h4, h5]

/-- C8 witness: submit with an empty session map. -/
theorem C8_incompleteSubmitNoMutation_witness :
    truthyStr (get_state ([] : StateMap) "ch1" "u1").room = false ∧
    meeting_actions env0 [] submitInpB =
      { payload := some (Payload.message (msg incompleteText [] "ephemeral" false false)),
        state := [], saved := none } :=
  ⟨by decide,
   C8_incompleteSubmitNoMutation env0 [] submitInpB
     (by decide) (by decide) (by decide) (by decide) (Or.inl (by decide))⟩

/-- C9 (amended): when the durable write of the appended reservation fails
during an otherwise successful submit, the exception escapes the handler —
no card/message-schema response is produced (the transport surfaces a server
error) — while the in-memory session state is left intact so the user can
retry without re-selecting.  The claimed user-visible transient error card
is refuted by `C9_writeFailureEscapes`. -/
theorem C9_amended_writeFailureRaises (env : Env) (state : StateMap) (inp : ActionsInput)
    (r s e : String)
    (h1 : inp.actionName ≠ "room") (h2 : inp.actionName ≠ "start") (h3 : inp.actionName ≠ "end")
    (h4 : pyStrip inp.actionValue = "submit")
    (hst : get_state state inp.chlogId inp.userId = ⟨some r, some s, some e⟩)
    (hr : r ≠ "") (hs : s ≠ "") (he : e ≠ "")
    (hbusy : room_busy r s e env.resv env.today = false)
    (hsave : env.saveOk = false) :
    meeting_actions env state inp = { payload := none, state := state, saved := none } := by
  simp [meeting_actions, h1, h2, h3, h4, hst, hr, hs, he, hbusy, hsave, truthyStr]

/-- C9 witness: the amended theorem applied to the scenario-B submit with a
failing write. -/
theorem C9_amended_writeFailureRaises_witness :
    room_busy "R301" "09:00" "10:00" env0.resv env0.today = false ∧
    ({ env0 with saveOk := false } : Env).saveOk = false ∧
    meeting_actions { env0 with saveOk := false } st3 submitInpB =
      { payload := none, state := st3, saved := none } :=
  ⟨by decide, by decide,
   C9_amended_writeFailureRaises { env0 with saveOk := false } st3 submitInpB
     "R301" "09:00" "10:00" (by decide) (by decide) (by decide) (by decide) (by decide)
     (by decide) (by decide) (by decide) (by decide) (by decide)⟩

/-- C10: a submit whose session state carries the placeholder room value
`__none__` together with a start and end is not rejected: no check that the
room id exists in the directory happens at commit, the reservation is
persisted with `roomId = "__none__"` (title falling back to the raw id), and
the response card's status section gains a row keyed
`"__none__ <start>~<end>"`. -/
theorem C10_phantomRoomCommit (env : Env) (state : StateMap) (inp : ActionsInput) (s e : String)
    (h1 : inp.actionName ≠ "room") (h2 : inp.actionName ≠ "start") (h3 : inp.actionName ≠ "end")
    (h4 : pyStrip inp.actionValue = "submit")
    (hst : get_state state inp.chlogId inp.userId = ⟨some "__none__", some s, some e⟩)
    (hs : s ≠ "") (he : e ≠ "")
    (hrooms : ∀ r ∈ env.rooms, r.id ≠ "__none__")
    (hbusy : room_busy "__none__" s e env.resv env.today = false)
    (hsave : env.saveOk = true) :
    (meeting_actions env state inp).saved =
      some (env.resv ++
        [⟨"RV-" ++ Nat.repr env.nowTs ++ "-" ++ inp.userId, env.today, "__none__",
          s, e, "__none__ 예약", inp.userId⟩]) ∧
    ∃ m, (meeting_actions env state inp).payload = some (Payload.message m) ∧
      ("__none__ " ++ s ++ "~" ++ e) ∈ (statusRows m).map SField.title := by
  have hname := roomName_notFound env.rooms "__none__" hrooms
  constructor
  · simp [meeting_actions, h1, h2, h3, h4, hst, hs, he, hbusy, hsave, truthyStr, hname]
  · have hpay : (meeting_actions env state inp).payload =
        some (Payload.message (submit_response inp.originalMessage
          (status_fields (submit_status inp.originalMessage ("__none__ " ++ s ++ "~" ++ e)
            (mention inp.tenantId inp.userId "member"))))) := by
      simp [meeting_actions, h1, h2, h3, h4, hst, hs, he, hbusy, hsave, truthyStr, hname]
    refine ⟨_, hpay, ?_⟩
    have hkey := mem_keys_submit_status inp.originalMessage
      ("__none__ " ++ s ++ "~" ++ e) (mention inp.tenantId inp.userId "member")
    obtain ⟨x, hxmem, hxt⟩ := exists_field_of_mem_keys _ _ hkey
    exact List.mem_map.mpr ⟨x, mem_statusRows_submit_response _ _ x hxmem, hxt⟩

/-- C10 witness: the `__none__` commit evaluated on a concrete session. -/
theorem C10_phantomRoomCommit_witness :
    get_state [(("c1", "u9"), ⟨some "__none__", some "09:00", some "10:00"⟩)] "c1" "u9" =
      ⟨some "__none__", some "09:00", some "10:00"⟩ ∧
    (∀ r ∈ env0.rooms, r.id ≠ "__none__") ∧
    (meeting_actions env0 [(("c1", "u9"), ⟨some "__none__", some "09:00", some "10:00"⟩)]
        ⟨"submit", "submit", freshCard, "tenant", "u9", "c1"⟩).saved =
      some (env0.resv ++
        [⟨"RV-1000-u9", env0.today, "__none__", "09:00", "10:00", "__none__ 예약", "u9"⟩]) :=
  ⟨by decide, by decide,
   (C10_phantomRoomCommit env0 [(("c1", "u9"), ⟨some "__none__", some "09:00", some "10:00"⟩)]
     ⟨"submit", "submit", freshCard, "tenant", "u9", "c1"⟩ "09:00" "10:00"
     (by decide) (by decide) (by decide) (by decide) (by decide) (by decide) (by decide)
     (by decide) (by decide) (by decide)).1⟩
